import Mathlib

/-!
Verification development for the Good-Time-Racing brake trainer core.

Shallow embedding of the drill grading engine (`src/drills.py`) and of the
signal-conditioning helpers (`src/backend_winmm.py`).  Python floats are
modelled with `ℚ`, Python `Optional[float]` with `Option ℚ`, and the
per-rep metrics dictionary with a structure.  Field and function names
follow the Python source.
-/

namespace BrakeTrainer

/-- Module-level threshold `FAST_MAX_MS` from `src/drills.py`. -/
def FAST_MAX_MS : ℚ := 120

/-- Module-level threshold `MED_MAX_MS` from `src/drills.py`. -/
def MED_MAX_MS : ℚ := 250

/-- Module-level threshold `REL_MED_MIN` from `src/drills.py`. -/
def REL_MED_MIN : ℚ := 300

/-- Module-level threshold `REL_MED_MAX` from `src/drills.py`. -/
def REL_MED_MAX : ℚ := 800

/-- Module-level threshold `REL_SLOW_MIN` from `src/drills.py`. -/
def REL_SLOW_MIN : ℚ := 800

/-- Module-level threshold `BAND_TOL_PCT` from `src/drills.py`. -/
def BAND_TOL_PCT : ℚ := 4/100

/-- Module-level threshold `OVER_PCT` from `src/drills.py`. -/
def OVER_PCT : ℚ := 6/100

/-- Module-level threshold `CORRECT_PCT` from `src/drills.py`. -/
def CORRECT_PCT : ℚ := 6/100

/-- Module-level threshold `RELBUMP_PCT` from `src/drills.py`. -/
def RELBUMP_PCT : ℚ := 5/100

/-- Module-level threshold `ONSET_THRESH` from `src/drills.py`. -/
def ONSET_THRESH : ℚ := 3/100

/-- Module-level threshold `END_HYST_MS` from `src/drills.py`. -/
def END_HYST_MS : ℚ := 200

/-- Module-level threshold `HOLD_MIN_MS` from `src/drills.py`. -/
def HOLD_MIN_MS : ℚ := 150

/-- Module-level threshold `OSC_WIN_MS` from `src/drills.py`. -/
def OSC_WIN_MS : ℚ := 500

/-- Module-level threshold `OSC_MIN_CROSS` from `src/drills.py`. -/
def OSC_MIN_CROSS : ℕ := 3

/-- The `app_goal` strings accepted by `DrillConfig` (`'FAST' | 'MEDIUM' | 'ANY'`). -/
inductive AppGoal
  | FAST
  | MEDIUM
  | ANY
deriving DecidableEq

/-- The `release_goal` strings accepted by `DrillConfig` (`'MEDIUM' | 'SLOW' | 'ANY'`). -/
inductive RelGoal
  | MEDIUM
  | SLOW
  | ANY
deriving DecidableEq

/-- `DrillConfig` dataclass from `src/drills.py`. -/
structure DrillConfig where
  target_pct : ℤ
  app_goal : AppGoal
  release_goal : RelGoal
  band_tol : ℚ
  hold_required_ms : ℤ
  hold_tol : ℚ
  onset_thresh : ℚ
  end_hysteresis_ms : ℚ
deriving DecidableEq

/-- `DrillConfig.band_low`: `max(0.0, target_pct/100 - band_tol)`. -/
def DrillConfig.band_low (cfg : DrillConfig) : ℚ :=
  max 0 ((cfg.target_pct : ℚ)/100 - cfg.band_tol)

/-- `DrillConfig.band_high`: `min(1.0, target_pct/100 + band_tol)`. -/
def DrillConfig.band_high (cfg : DrillConfig) : ℚ :=
  min 1 ((cfg.target_pct : ℚ)/100 + cfg.band_tol)

/-- The four values taken by the `state` string of `DrillEngine`. -/
inductive EState
  | IDLE
  | APPLY
  | IN_BAND
  | RELEASE
deriving DecidableEq

/-- `DrillEngine` dataclass fields from `src/drills.py`. -/
structure DrillEngine where
  cfg : DrillConfig
  state : EState
  last_t : Option ℚ
  last_b : ℚ
  onset_t : Option ℚ
  first_inband_t : Option ℚ
  last_inband_t : Option ℚ
  end_candidate_t : Option ℚ
  peak : ℚ
  overshoot : ℚ
  did_correction : Bool
  crosses : List ℚ
  release_bump : Bool
deriving DecidableEq

/-- A fresh `DrillEngine(cfg)` with the dataclass defaults. -/
def mkEngine (cfg : DrillConfig) : DrillEngine :=
  { cfg := cfg, state := EState.IDLE, last_t := none, last_b := 0,
    onset_t := none, first_inband_t := none, last_inband_t := none,
    end_candidate_t := none, peak := 0, overshoot := 0,
    did_correction := false, crosses := [], release_bump := false }

/-- `DrillEngine.reset_rep`: clears the per-rep state; `cfg`, `last_t` and
`last_b` are untouched. -/
def DrillEngine.reset_rep (e : DrillEngine) : DrillEngine :=
  { e with
    state := EState.IDLE
    onset_t := none
    first_inband_t := none
    last_inband_t := none
    end_candidate_t := none
    peak := 0
    overshoot := 0
    did_correction := false
    crosses := []
    release_bump := false }

/-- The metrics dictionary built by `DrillEngine._finalize_metrics`. -/
structure RepMetrics where
  ttb_ms : Option ℚ
  peak_pct : ℚ
  overshoot_pct : ℚ
  early_correction : Bool
  oscillations : ℕ
  release_ms : Option ℚ
  release_bump : Bool
  hold_ms : ℚ
deriving DecidableEq

/-- A `rep_complete` event (the `'type'` key is constant and omitted). -/
structure RepEvent where
  metrics : RepMetrics
  passed : Bool
deriving DecidableEq

/-- Python `opt or d` on an `Optional[float]`: both `None` and `0.0` are
falsy, so the default is taken in either case. -/
def pyOrQ (o : Option ℚ) (d : ℚ) : ℚ :=
  match o with
  | none => d
  | some v => if v = 0 then d else v

/-- Band-crossing tracking block of `DrillEngine.update` (lines 101-111):
records a crossing timestamp when the in-band boolean flips, then stores
the current sample into `last_t`/`last_b`. -/
def updCross (e : DrillEngine) (t b : ℚ) : DrillEngine :=
  let lo := e.cfg.band_low
  let hi := e.cfg.band_high
  match e.last_t with
  | none => { e with last_t := some t, last_b := b }
  | some _ =>
    let was_in := lo ≤ e.last_b ∧ e.last_b ≤ hi
    let now_in := lo ≤ b ∧ b ≤ hi
    let e' := if ¬(was_in ↔ now_in) then { e with crosses := e.crosses ++ [t] } else e
    { e' with last_t := some t, last_b := b }

/-- Peak/overshoot block of `DrillEngine.update` (lines 113-117). -/
def updPeak (e : DrillEngine) (b : ℚ) : DrillEngine :=
  let hi := e.cfg.band_high
  if b > e.peak then
    let e' := { e with peak := b }
    if b > hi + OVER_PCT then
      { e' with overshoot := max e'.overshoot (b - (e.cfg.target_pct : ℚ)/100) }
    else e'
  else e

/-- State-machine block of `DrillEngine.update` (lines 119-144).  Note that
`last_b` has already been overwritten with the current sample by the
crossing block, exactly as in the Python source, so the RELEASE branch
compares `b` with itself. -/
def updState (e : DrillEngine) (t b : ℚ) : DrillEngine :=
  let lo := e.cfg.band_low
  let hi := e.cfg.band_high
  match e.state with
  | EState.IDLE =>
    if b ≥ e.cfg.onset_thresh then
      { e with state := EState.APPLY, onset_t := some t }
    else e
  | EState.APPLY =>
    if lo ≤ b ∧ b ≤ hi then
      { e with
        state := EState.IN_BAND
        first_inband_t := some t
        last_inband_t := some t }
    else e
  | EState.IN_BAND =>
    if lo ≤ b ∧ b ≤ hi then
      let e' := { e with last_inband_t := some t }
      if t - pyOrQ e'.first_inband_t t ≤ 200 ∧
          b < (e.cfg.target_pct : ℚ)/100 - CORRECT_PCT then
        { e' with did_correction := true }
      else e'
    else { e with state := EState.RELEASE }
  | EState.RELEASE =>
    if b - e.last_b ≥ RELBUMP_PCT then { e with release_bump := true } else e

/-- Count of entries `x` of a list with `t0 ≤ x`: the generator-sum
`sum(1 for t in crosses if t >= t0)` of `_finalize_metrics`. -/
def countGE (t0 : ℚ) : List ℚ → ℕ
  | [] => 0
  | x :: r => (if t0 ≤ x then 1 else 0) + countGE t0 r

/-- `DrillEngine._finalize_metrics` (lines 164-194). -/
def _finalize_metrics (e : DrillEngine) : RepMetrics :=
  let ttb : Option ℚ :=
    match e.onset_t, e.first_inband_t with
    | some onset, some first => some (max 0 (first - onset))
    | _, _ => none
  let release_ms : Option ℚ :=
    match e.last_inband_t, e.end_candidate_t with
    | some last, some ec => some (max 0 (ec - last))
    | _, _ => none
  let osc : ℕ :=
    match e.crosses.getLast? with
    | none => 0
    | some tl => countGE (tl - OSC_WIN_MS) e.crosses
  let hold_ms : ℚ :=
    match e.first_inband_t, e.last_inband_t with
    | some first, some last => max 0 (last - first)
    | _, _ => 0
  { ttb_ms := ttb,
    peak_pct := e.peak * 100,
    overshoot_pct := max 0 (e.peak - (e.cfg.target_pct : ℚ)/100) * 100,
    early_correction := e.did_correction,
    oscillations := osc,
    release_ms := release_ms,
    release_bump := e.release_bump,
    hold_ms := hold_ms }

/-- `DrillEngine._passed` (lines 196-227), with the engine's `cfg` passed
explicitly. -/
def _passed (cfg : DrillConfig) (m : RepMetrics) : Bool :=
  match m.ttb_ms with
  | none => false
  | some ttb =>
    if ttb > 400 then false
    else if cfg.app_goal = AppGoal.FAST ∧ ¬(ttb ≤ FAST_MAX_MS) then false
    else if cfg.app_goal = AppGoal.MEDIUM ∧ ¬(FAST_MAX_MS < ttb ∧ ttb ≤ MED_MAX_MS) then false
    else if m.overshoot_pct > OVER_PCT * 100 then false
    else if m.early_correction then false
    else if cfg.hold_required_ms > 0 ∧ m.hold_ms < max HOLD_MIN_MS (cfg.hold_required_ms : ℚ) then false
    else
      match m.release_ms with
      | none => false
      | some rm =>
        if cfg.release_goal = RelGoal.MEDIUM ∧ ¬(REL_MED_MIN ≤ rm ∧ rm ≤ REL_MED_MAX) then false
        else if cfg.release_goal = RelGoal.SLOW ∧ ¬(rm ≥ REL_SLOW_MIN) then false
        else if m.release_bump then false
        else if m.oscillations ≥ OSC_MIN_CROSS then false
        else true

/-- End-of-rep block of `DrillEngine.update` (lines 146-161): below the
onset threshold an end candidate is armed, and once it has persisted for
`end_hysteresis_ms` the rep finalizes and the per-rep state resets. -/
def updEnd (e : DrillEngine) (t b : ℚ) : DrillEngine × List RepEvent :=
  if e.state = EState.APPLY ∨ e.state = EState.IN_BAND ∨ e.state = EState.RELEASE then
    if b < e.cfg.onset_thresh then
      match e.end_candidate_t with
      | none => ({ e with end_candidate_t := some t }, [])
      | some tc =>
        if t - tc ≥ e.cfg.end_hysteresis_ms then
          let m := _finalize_metrics e
          (e.reset_rep, [{ metrics := m, passed := _passed e.cfg m }])
        else (e, [])
    else ({ e with end_candidate_t := none }, [])
  else (e, [])

/-- `DrillEngine.update` (lines 93-161): the four blocks in source order. -/
def update (e : DrillEngine) (t b : ℚ) : DrillEngine × List RepEvent :=
  updEnd (updState (updPeak (updCross e t b) b) t b) t b

/-- Feed a list of `(t_ms, b)` samples through `update`, collecting all
emitted events in order. -/
def runE : DrillEngine → List (ℚ × ℚ) → DrillEngine × List RepEvent
  | e, [] => (e, [])
  | e, (t, b) :: rest =>
    let r1 := update e t b
    let r2 := runE r1.1 rest
    (r2.1, r1.2 ++ r2.2)

/-- The distinct diagnostic messages appended by `feedback_for`
(`src/drills.py` lines 264-293).  The formatted text of each message is
abstracted to a constructor carrying the numeric payloads interpolated
into it. -/
inductive FbMsg
  | neverReached
  | appTooSlow (ttb : ℚ)
  | appOffTarget (ttb : ℚ)
  | overshootHigh (pct : ℚ)
  | earlyCorrectionMsg
  | oscillationMsg
  | releaseOff (rm : ℚ)
  | releaseTooFast (rm : ℚ)
  | releaseBumpMsg
  | holdShort (hold need : ℚ)
deriving DecidableEq

/-- The `msgs` list built by `feedback_for`, in source order. -/
def feedback_msgs (m : RepMetrics) (cfg : DrillConfig) : List FbMsg :=
  let l1 : List FbMsg :=
    match m.ttb_ms with
    | none => [FbMsg.neverReached]
    | some ttb =>
      if cfg.app_goal = AppGoal.FAST ∧ ttb > FAST_MAX_MS then [FbMsg.appTooSlow ttb]
      else if cfg.app_goal = AppGoal.MEDIUM ∧ ¬(FAST_MAX_MS < ttb ∧ ttb ≤ MED_MAX_MS) then
        [FbMsg.appOffTarget ttb]
      else []
  let l2 := if m.overshoot_pct > OVER_PCT * 100 then [FbMsg.overshootHigh m.overshoot_pct] else []
  let l3 := if m.early_correction then [FbMsg.earlyCorrectionMsg] else []
  let l4 := if m.oscillations ≥ OSC_MIN_CROSS then [FbMsg.oscillationMsg] else []
  let l5 : List FbMsg :=
    match m.release_ms with
    | none => []
    | some rm =>
      (if cfg.release_goal = RelGoal.MEDIUM ∧ ¬(REL_MED_MIN ≤ rm ∧ rm ≤ REL_MED_MAX) then
        [FbMsg.releaseOff rm] else [])
      ++ (if cfg.release_goal = RelGoal.SLOW ∧ rm < REL_SLOW_MIN then
        [FbMsg.releaseTooFast rm] else [])
  let l6 := if m.release_bump then [FbMsg.releaseBumpMsg] else []
  let l7 :=
    if cfg.hold_required_ms > 0 ∧ m.hold_ms < max HOLD_MIN_MS (cfg.hold_required_ms : ℚ) then
      [FbMsg.holdShort m.hold_ms (max HOLD_MIN_MS (cfg.hold_required_ms : ℚ))]
    else []
  l1 ++ l2 ++ l3 ++ l4 ++ l5 ++ l6 ++ l7

/-- The text returned by `feedback_for`: the single affirmative string when
no message applies, otherwise the joined diagnostic messages. -/
inductive FeedbackText
  | affirmative
  | issues (msgs : List FbMsg)
deriving DecidableEq

/-- `feedback_for(metrics, cfg)` (lines 264-293). -/
def feedback_for (m : RepMetrics) (cfg : DrillConfig) : FeedbackText :=
  if feedback_msgs m cfg = [] then FeedbackText.affirmative
  else FeedbackText.issues (feedback_msgs m cfg)

/-- `StreakTracker` dataclass from `src/drills.py` (lines 230-260). -/
structure StreakTracker where
  goal : ℤ
  streak : ℤ
  best : ℤ
  reps : ℤ
  start_ms : Option ℚ
  end_ms : Option ℚ
deriving DecidableEq

/-- A fresh `StreakTracker(goal)` with the dataclass defaults. -/
def mkTracker (goal : ℤ) : StreakTracker :=
  { goal := goal, streak := 0, best := 0, reps := 0, start_ms := none, end_ms := none }

/-- `StreakTracker.note_rep` (lines 239-248). -/
def StreakTracker.note_rep (s : StreakTracker) (t_ms : ℚ) (passed : Bool) : StreakTracker :=
  let s := if s.start_ms = none then { s with start_ms := some t_ms } else s
  let s := { s with reps := s.reps + 1 }
  let s :=
    if passed then
      let s' := { s with streak := s.streak + 1 }
      { s' with best := max s'.best s'.streak }
    else { s with streak := 0 }
  { s with end_ms := some t_ms }

/-- `StreakTracker.complete` (lines 250-251). -/
def StreakTracker.complete (s : StreakTracker) : Bool :=
  decide (s.streak ≥ s.goal)

/-- The dictionary returned by `StreakTracker.summary` (lines 253-260). -/
structure SummaryRec where
  reps : ℤ
  best_streak : ℤ
  completed_goal : Bool
  duration_ms : ℚ
deriving DecidableEq

/-- `StreakTracker.summary` (lines 253-260). -/
def StreakTracker.summary (s : StreakTracker) : SummaryRec :=
  let dur : ℚ :=
    match s.start_ms, s.end_ms with
    | some a, some b => max 0 (b - a)
    | _, _ => 0
  { reps := s.reps, best_streak := s.best,
    completed_goal := decide (s.best ≥ s.goal), duration_ms := dur }

/-- Feed a list of `(t_ms, passed)` rep events through `note_rep`. -/
def runTracker : StreakTracker → List (ℚ × Bool) → StreakTracker
  | s, [] => s
  | s, (t, p) :: rest => runTracker (s.note_rep t p) rest

/-- `NormCfg` dataclass from `src/backend_winmm.py` (lines 55-59). -/
structure NormCfg where
  invert : Bool
  deadzone : ℚ
  zero_raw : ℚ
deriving DecidableEq

/-- `_raw01_from_uint` (lines 86-90): clamp a raw count into the nominal
WinMM range `0..65535` and scale to `[0,1]`. -/
def _raw01_from_uint (v : ℤ) : ℚ :=
  let v := if v < 0 then 0 else v
  let v := if v > 65535 then 65535 else v
  (v : ℚ) / 65535

/-- `_map_norm` (lines 92-103): zero-offset, deadzone, inversion and
clamping into `[0,1]`. -/
def _map_norm (v_uint : ℤ) (cfg : NormCfg) : ℚ :=
  let x := _raw01_from_uint v_uint
  let x := if cfg.invert then 1 - x else x
  let floor := min (98/100 : ℚ) (cfg.zero_raw + cfg.deadzone)
  if x ≤ floor then 0
  else
    let den := 1 - floor
    if den ≤ 1/1000000000 then 0
    else max 0 (min 1 ((x - floor) / den))

/-- `EMA` smoother state from `src/backend_winmm.py` (lines 61-84); the
Python `_init` field is called `isInit`. -/
structure EMA where
  ms : ℚ
  isInit : Bool
  y : ℚ
  t : Option ℚ
deriving DecidableEq

/-- `EMA(ms)` constructor (lines 62-66). -/
def mkEMA (ms : ℚ) : EMA :=
  { ms := ms, isInit := false, y := 0, t := none }

/-- `EMA.reset` (lines 67-70). -/
def EMA.reset (e : EMA) : EMA :=
  { e with isInit := false, y := 0, t := none }

/-- `EMA.step` (lines 71-84), returning the output value together with the
updated state.  `(self.t or now)` uses Python truthiness, see `pyOrQ`. -/
def EMA.step (e : EMA) (x now : ℚ) : ℚ × EMA :=
  if e.isInit = false then
    (x, { e with isInit := true, t := some now, y := x })
  else
    let dt := max (1/1000000) (now - pyOrQ e.t now)
    let e := { e with t := some now }
    if e.ms ≤ 0 then
      (x, { e with y := x })
    else
      let a := min 1 (dt / (e.ms / 1000))
      let y' := a * x + (1 - a) * e.y
      (y', { e with y := y' })

/-- Default drill configuration of the self-test: `DrillConfig(target_pct=80,
app_goal='FAST', release_goal='MEDIUM')` with the dataclass defaults. -/
def cfgD : DrillConfig :=
  { target_pct := 80, app_goal := AppGoal.FAST, release_goal := RelGoal.MEDIUM,
    band_tol := BAND_TOL_PCT, hold_required_ms := 0, hold_tol := 3/100,
    onset_thresh := ONSET_THRESH, end_hysteresis_ms := END_HYST_MS }

/-- A configuration with both goals set to `'ANY'`. -/
def cfgAny : DrillConfig :=
  { target_pct := 80, app_goal := AppGoal.ANY, release_goal := RelGoal.ANY,
    band_tol := BAND_TOL_PCT, hold_required_ms := 0, hold_tol := 3/100,
    onset_thresh := ONSET_THRESH, end_hysteresis_ms := END_HYST_MS }

/-- Scenario-D style sample stream: band entered at `t=100`, dip to `0.70`
(`target − 10%`) at `t=150`, i.e. within 200 ms of entry, then a clean
release and end-of-rep. -/
def traceA : List (ℚ × ℚ) :=
  [(0, 0), (10, 1/2), (100, 8/10), (150, 7/10), (600, 0), (850, 0)]

/-- Sample stream leaving the band at `t=150` and jumping up by `+0.2`
(from `0.5` to `0.7`) at `t=200` while in the RELEASE state. -/
def traceB : List (ℚ × ℚ) :=
  [(0, 0), (10, 1/2), (100, 8/10), (150, 1/2), (200, 7/10), (600, 0), (850, 0)]

/-- Sample stream reaching the band only at `t=510` (`ttb = 500 ms`),
otherwise clean. -/
def traceC : List (ℚ × ℚ) :=
  [(0, 0), (10, 1/2), (510, 8/10), (560, 8/10), (600, 1/2), (900, 0), (1200, 0)]

/-- Engine state after sample 1 of `traceA`. -/
def eA1 : DrillEngine := { mkEngine cfgD with last_t := some 0 }

/-- Engine state after sample 2 of `traceA`. -/
def eA2 : DrillEngine :=
  { mkEngine cfgD with
    state := EState.APPLY
    last_t := some 10
    last_b := 1/2
    onset_t := some 10
    peak := 1/2 }

/-- Engine state after sample 3 of `traceA`. -/
def eA3 : DrillEngine :=
  { eA2 with
    state := EState.IN_BAND
    last_t := some 100
    last_b := 8/10
    first_inband_t := some 100
    last_inband_t := some 100
    peak := 8/10
    crosses := [100] }

/-- Engine state after sample 4 of `traceA`. -/
def eA4 : DrillEngine :=
  { eA3 with
    state := EState.RELEASE
    last_t := some 150
    last_b := 7/10
    crosses := [100, 150] }

/-- Engine state after sample 5 of `traceA`. -/
def eA5 : DrillEngine :=
  { eA4 with last_t := some 600, last_b := 0, end_candidate_t := some 600 }

/-- Engine state after the rep finalizes at sample 6 of `traceA`. -/
def eA6 : DrillEngine := { mkEngine cfgD with last_t := some 850 }

/-- The single `rep_complete` event emitted on `traceA` (and on `traceB`). -/
def evA : RepEvent :=
  { metrics := { ttb_ms := some 90, peak_pct := 80, overshoot_pct := 0,
                 early_correction := false, oscillations := 2,
                 release_ms := some 500, release_bump := false, hold_ms := 0 },
    passed := true }

/-- Engine state after sample 4 of `traceB`. -/
def eB4 : DrillEngine :=
  { eA3 with
    state := EState.RELEASE
    last_t := some 150
    last_b := 1/2
    crosses := [100, 150] }

/-- Engine state after sample 5 of `traceB` (the `+0.2` upward jump in
RELEASE). -/
def eB5 : DrillEngine := { eB4 with last_t := some 200, last_b := 7/10 }

/-- Engine state after sample 6 of `traceB`. -/
def eB6 : DrillEngine :=
  { eB5 with last_t := some 600, last_b := 0, end_candidate_t := some 600 }

/-- Engine state after sample 1 of `traceC`. -/
def eC1 : DrillEngine := { mkEngine cfgAny with last_t := some 0 }

/-- Engine state after sample 2 of `traceC`. -/
def eC2 : DrillEngine :=
  { mkEngine cfgAny with
    state := EState.APPLY
    last_t := some 10
    last_b := 1/2
    onset_t := some 10
    peak := 1/2 }

/-- Engine state after sample 3 of `traceC`. -/
def eC3 : DrillEngine :=
  { eC2 with
    state := EState.IN_BAND
    last_t := some 510
    last_b := 8/10
    first_inband_t := some 510
    last_inband_t := some 510
    peak := 8/10
    crosses := [510] }

/-- Engine state after sample 4 of `traceC`. -/
def eC4 : DrillEngine := { eC3 with last_t := some 560, last_inband_t := some 560 }

/-- Engine state after sample 5 of `traceC`. -/
def eC5 : DrillEngine :=
  { eC4 with
    state := EState.RELEASE
    last_t := some 600
    last_b := 1/2
    crosses := [510, 600] }

/-- Engine state after sample 6 of `traceC`. -/
def eC6 : DrillEngine :=
  { eC5 with last_t := some 900, last_b := 0, end_candidate_t := some 900 }

/-- Engine state after the rep finalizes at sample 7 of `traceC`. -/
def eC7 : DrillEngine := { mkEngine cfgAny with last_t := some 1200 }

/-- The single `rep_complete` event emitted on `traceC`: time-to-band
500 ms, failing the 400 ms ceiling. -/
def evC : RepEvent :=
  { metrics := { ttb_ms := some 500, peak_pct := 80, overshoot_pct := 0,
                 early_correction := false, oscillations := 2,
                 release_ms := some 340, release_bump := false, hold_ms := 50 },
    passed := false }

/-- Length of the leading run of `true`s of a pass/fail word. -/
def prefixRun : List Bool → ℕ
  | [] => 0
  | true :: r => prefixRun r + 1
  | false :: _ => 0

/-- Length of the longest run of consecutive `true`s anywhere in a
pass/fail word: the maximum over all suffixes of the leading run. -/
def maxRun : List Bool → ℕ
  | [] => 0
  | p :: r => max (prefixRun (p :: r)) (maxRun r)

/-- Length of the trailing run of `true`s of a pass/fail word. -/
def suffixRun (l : List Bool) : ℕ :=
  prefixRun l.reverse

lemma stepA1 : update (mkEngine cfgD) 0 0 = (eA1, []) := by
  norm_num [update, updCross, updPeak, updState, updEnd, mkEngine, cfgD, eA1,
    DrillConfig.band_low, DrillConfig.band_high, pyOrQ, BAND_TOL_PCT, OVER_PCT,
    CORRECT_PCT, RELBUMP_PCT, ONSET_THRESH, END_HYST_MS] <;> simp

lemma stepA2 : update eA1 10 (1/2) = (eA2, []) := by
  norm_num [update, updCross, updPeak, updState, updEnd, mkEngine, cfgD, eA1, eA2,
    DrillConfig.band_low, DrillConfig.band_high, pyOrQ, BAND_TOL_PCT, OVER_PCT,
    CORRECT_PCT, RELBUMP_PCT, ONSET_THRESH, END_HYST_MS] <;> simp

lemma stepA3 : update eA2 100 (8/10) = (eA3, []) := by
  norm_num [update, updCross, updPeak, updState, updEnd, mkEngine, cfgD, eA2, eA3,
    DrillConfig.band_low, DrillConfig.band_high, pyOrQ, BAND_TOL_PCT, OVER_PCT,
    CORRECT_PCT, RELBUMP_PCT, ONSET_THRESH, END_HYST_MS] <;> simp

lemma stepA4 : update eA3 150 (7/10) = (eA4, []) := by
  norm_num [update, updCross, updPeak, updState, updEnd, mkEngine, cfgD, eA2, eA3, eA4,
    DrillConfig.band_low, DrillConfig.band_high, pyOrQ, BAND_TOL_PCT, OVER_PCT,
    CORRECT_PCT, RELBUMP_PCT, ONSET_THRESH, END_HYST_MS] <;> simp

lemma stepA5 : update eA4 600 0 = (eA5, []) := by
  norm_num [update, updCross, updPeak, updState, updEnd, mkEngine, cfgD, eA2, eA3, eA4, eA5,
    DrillConfig.band_low, DrillConfig.band_high, pyOrQ, BAND_TOL_PCT, OVER_PCT,
    CORRECT_PCT, RELBUMP_PCT, ONSET_THRESH, END_HYST_MS] <;> simp

lemma stepA6 : update eA5 850 0 = (eA6, [evA]) := by
  norm_num [update, updCross, updPeak, updState, updEnd, _finalize_metrics, _passed,
    countGE, DrillEngine.reset_rep, mkEngine, cfgD, eA2, eA3, eA4, eA5, eA6, evA,
    DrillConfig.band_low, DrillConfig.band_high, pyOrQ, BAND_TOL_PCT, OVER_PCT,
    CORRECT_PCT, RELBUMP_PCT, ONSET_THRESH, END_HYST_MS, FAST_MAX_MS, MED_MAX_MS,
    REL_MED_MIN, REL_MED_MAX, REL_SLOW_MIN, HOLD_MIN_MS, OSC_WIN_MS, OSC_MIN_CROSS] <;> simp

/-- `traceA` run end to end: one event, with `early_correction = false` and
`passed = true`. -/
lemma runA : runE (mkEngine cfgD) traceA = (eA6, [evA]) := by
  simp only [runE, traceA, stepA1, stepA2, stepA3, stepA4, stepA5, stepA6,
    List.nil_append, List.append_nil]

lemma stepB4 : update eA3 150 (1/2) = (eB4, []) := by
  norm_num [update, updCross, updPeak, updState, updEnd, mkEngine, cfgD, eA2, eA3, eB4,
    DrillConfig.band_low, DrillConfig.band_high, pyOrQ, BAND_TOL_PCT, OVER_PCT,
    CORRECT_PCT, RELBUMP_PCT, ONSET_THRESH, END_HYST_MS] <;> simp

lemma stepB5 : update eB4 200 (7/10) = (eB5, []) := by
  norm_num [update, updCross, updPeak, updState, updEnd, mkEngine, cfgD, eA2, eA3, eB4, eB5,
    DrillConfig.band_low, DrillConfig.band_high, pyOrQ, BAND_TOL_PCT, OVER_PCT,
    CORRECT_PCT, RELBUMP_PCT, ONSET_THRESH, END_HYST_MS] <;> simp

lemma stepB6 : update eB5 600 0 = (eB6, []) := by
  norm_num [update, updCross, updPeak, updState, updEnd, mkEngine, cfgD, eA2, eA3, eB4, eB5, eB6,
    DrillConfig.band_low, DrillConfig.band_high, pyOrQ, BAND_TOL_PCT, OVER_PCT,
    CORRECT_PCT, RELBUMP_PCT, ONSET_THRESH, END_HYST_MS] <;> simp

lemma stepB7 : update eB6 850 0 = (eA6, [evA]) := by
  norm_num [update, updCross, updPeak, updState, updEnd, _finalize_metrics, _passed,
    countGE, DrillEngine.reset_rep, mkEngine, cfgD, eA2, eA3, eB4, eB5, eB6, eA6, evA,
    DrillConfig.band_low, DrillConfig.band_high, pyOrQ, BAND_TOL_PCT, OVER_PCT,
    CORRECT_PCT, RELBUMP_PCT, ONSET_THRESH, END_HYST_MS, FAST_MAX_MS, MED_MAX_MS,
    REL_MED_MIN, REL_MED_MAX, REL_SLOW_MIN, HOLD_MIN_MS, OSC_WIN_MS, OSC_MIN_CROSS] <;> simp

/-- `traceB` run end to end: the `+0.2` jump in RELEASE leaves
`release_bump` untouched. -/
lemma runB : runE (mkEngine cfgD) traceB = (eA6, [evA]) := by
  simp only [runE, traceB, stepA1, stepA2, stepA3, stepB4, stepB5, stepB6, stepB7,
    List.nil_append, List.append_nil]

lemma stepC1 : update (mkEngine cfgAny) 0 0 = (eC1, []) := by
  norm_num [update, updCross, updPeak, updState, updEnd, mkEngine, cfgAny, eC1,
    DrillConfig.band_low, DrillConfig.band_high, pyOrQ, BAND_TOL_PCT, OVER_PCT,
    CORRECT_PCT, RELBUMP_PCT, ONSET_THRESH, END_HYST_MS] <;> simp

lemma stepC2 : update eC1 10 (1/2) = (eC2, []) := by
  norm_num [update, updCross, updPeak, updState, updEnd, mkEngine, cfgAny, eC1, eC2,
    DrillConfig.band_low, DrillConfig.band_high, pyOrQ, BAND_TOL_PCT, OVER_PCT,
    CORRECT_PCT, RELBUMP_PCT, ONSET_THRESH, END_HYST_MS] <;> simp

lemma stepC3 : update eC2 510 (8/10) = (eC3, []) := by
  norm_num [update, updCross, updPeak, updState, updEnd, mkEngine, cfgAny, eC2, eC3,
    DrillConfig.band_low, DrillConfig.band_high, pyOrQ, BAND_TOL_PCT, OVER_PCT,
    CORRECT_PCT, RELBUMP_PCT, ONSET_THRESH, END_HYST_MS] <;> simp

lemma stepC4 : update eC3 560 (8/10) = (eC4, []) := by
  norm_num [update, updCross, updPeak, updState, updEnd, mkEngine, cfgAny, eC2, eC3, eC4,
    DrillConfig.band_low, DrillConfig.band_high, pyOrQ, BAND_TOL_PCT, OVER_PCT,
    CORRECT_PCT, RELBUMP_PCT, ONSET_THRESH, END_HYST_MS] <;> simp

lemma stepC5 : update eC4 600 (1/2) = (eC5, []) := by
  norm_num [update, updCross, updPeak, updState, updEnd, mkEngine, cfgAny, eC2, eC3, eC4, eC5,
    DrillConfig.band_low, DrillConfig.band_high, pyOrQ, BAND_TOL_PCT, OVER_PCT,
    CORRECT_PCT, RELBUMP_PCT, ONSET_THRESH, END_HYST_MS] <;> simp

lemma stepC6 : update eC5 900 0 = (eC6, []) := by
  norm_num [update, updCross, updPeak, updState, updEnd, mkEngine, cfgAny, eC2, eC3, eC4, eC5, eC6,
    DrillConfig.band_low, DrillConfig.band_high, pyOrQ, BAND_TOL_PCT, OVER_PCT,
    CORRECT_PCT, RELBUMP_PCT, ONSET_THRESH, END_HYST_MS] <;> simp

lemma stepC7 : update eC6 1200 0 = (eC7, [evC]) := by
  norm_num [update, updCross, updPeak, updState, updEnd, _finalize_metrics, _passed,
    countGE, DrillEngine.reset_rep, mkEngine, cfgAny, eC2, eC3, eC4, eC5, eC6, eC7, evC,
    DrillConfig.band_low, DrillConfig.band_high, pyOrQ, BAND_TOL_PCT, OVER_PCT,
    CORRECT_PCT, RELBUMP_PCT, ONSET_THRESH, END_HYST_MS, FAST_MAX_MS, MED_MAX_MS,
    REL_MED_MIN, REL_MED_MAX, REL_SLOW_MIN, HOLD_MIN_MS, OSC_WIN_MS, OSC_MIN_CROSS] <;> simp

/-- `traceC` run end to end: one event with `ttb_ms = 500`, `passed = false`. -/
lemma runC : runE (mkEngine cfgAny) traceC = (eC7, [evC]) := by
  simp only [runE, traceC, stepC1, stepC2, stepC3, stepC4, stepC5, stepC6, stepC7,
    List.nil_append, List.append_nil]

lemma updCross_last_t (e : DrillEngine) (t b : ℚ) : (updCross e t b).last_t = some t := by
  unfold updCross; cases e.last_t <;> simp

lemma updCross_last_b (e : DrillEngine) (t b : ℚ) : (updCross e t b).last_b = b := by
  unfold updCross; cases e.last_t <;> simp

lemma updCross_cfg (e : DrillEngine) (t b : ℚ) : (updCross e t b).cfg = e.cfg := by
  unfold updCross; cases e.last_t <;> simp <;> split <;> rfl

lemma updCross_state (e : DrillEngine) (t b : ℚ) : (updCross e t b).state = e.state := by
  unfold updCross; cases e.last_t <;> simp <;> split <;> rfl

lemma updCross_end_candidate (e : DrillEngine) (t b : ℚ) :
    (updCross e t b).end_candidate_t = e.end_candidate_t := by
  unfold updCross; cases e.last_t <;> simp <;> split <;> rfl

lemma updCross_release_bump (e : DrillEngine) (t b : ℚ) :
    (updCross e t b).release_bump = e.release_bump := by
  unfold updCross; cases e.last_t <;> simp <;> split <;> rfl

lemma updPeak_last_t (e : DrillEngine) (b : ℚ) : (updPeak e b).last_t = e.last_t := by
  simp only [updPeak]; split_ifs <;> rfl

lemma updPeak_last_b (e : DrillEngine) (b : ℚ) : (updPeak e b).last_b = e.last_b := by
  simp only [updPeak]; split_ifs <;> rfl

lemma updPeak_cfg (e : DrillEngine) (b : ℚ) : (updPeak e b).cfg = e.cfg := by
  simp only [updPeak]; split_ifs <;> rfl

lemma updPeak_state (e : DrillEngine) (b : ℚ) : (updPeak e b).state = e.state := by
  simp only [updPeak]; split_ifs <;> rfl

lemma updPeak_end_candidate (e : DrillEngine) (b : ℚ) :
    (updPeak e b).end_candidate_t = e.end_candidate_t := by
  simp only [updPeak]; split_ifs <;> rfl

lemma updPeak_release_bump (e : DrillEngine) (b : ℚ) :
    (updPeak e b).release_bump = e.release_bump := by
  simp only [updPeak]; split_ifs <;> rfl

lemma updState_last_t (e : DrillEngine) (t b : ℚ) : (updState e t b).last_t = e.last_t := by
  obtain ⟨c, st, lt, lb, ot, ft, lit, ect, pk, ov, dc, cr, rb⟩ := e; cases st <;> simp only [updState] <;> split_ifs <;> rfl

lemma updState_last_b (e : DrillEngine) (t b : ℚ) : (updState e t b).last_b = e.last_b := by
  obtain ⟨c, st, lt, lb, ot, ft, lit, ect, pk, ov, dc, cr, rb⟩ := e; cases st <;> simp only [updState] <;> split_ifs <;> rfl

lemma updState_cfg (e : DrillEngine) (t b : ℚ) : (updState e t b).cfg = e.cfg := by
  obtain ⟨c, st, lt, lb, ot, ft, lit, ect, pk, ov, dc, cr, rb⟩ := e; cases st <;> simp only [updState] <;> split_ifs <;> rfl

lemma updState_end_candidate (e : DrillEngine) (t b : ℚ) :
    (updState e t b).end_candidate_t = e.end_candidate_t := by
  obtain ⟨c, st, lt, lb, ot, ft, lit, ect, pk, ov, dc, cr, rb⟩ := e; cases st <;> simp only [updState] <;> split_ifs <;> rfl

/-- With `last_b` already overwritten by the current sample, the RELEASE
branch of the state machine compares `b` with itself and can never raise
`release_bump`. -/
lemma updState_release_bump (e : DrillEngine) (t b : ℚ) (h : e.last_b = b) :
    (updState e t b).release_bump = e.release_bump := by
  obtain ⟨c, st, lt, lb, ot, ft, lit, ect, pk, ov, dc, cr, rb⟩ := e
  simp only at h
  subst h
  cases st <;> simp only [updState] <;> split_ifs <;> try rfl
  rename_i hc
  exfalso
  norm_num [RELBUMP_PCT, sub_self] at hc

lemma finalize_release_bump (e : DrillEngine) :
    (_finalize_metrics e).release_bump = e.release_bump := rfl

lemma update_no_release_bump (e : DrillEngine) (t b : ℚ) (h : e.release_bump = false) :
    (update e t b).1.release_bump = false ∧
    ∀ ev ∈ (update e t b).2, ev.metrics.release_bump = false := by
  have hb : (updState (updPeak (updCross e t b) b) t b).release_bump = false := by
    rw [updState_release_bump _ _ _ (by rw [updPeak_last_b, updCross_last_b]),
      updPeak_release_bump, updCross_release_bump, h]
  unfold update updEnd
  split_ifs with h1 h2
  · rcases hec : (updState (updPeak (updCross e t b) b) t b).end_candidate_t with _ | tc
    · simpa using hb
    · dsimp only
      split_ifs with h3
      · refine ⟨by simp [DrillEngine.reset_rep], ?_⟩
        intro ev hev
        simp only [List.mem_singleton] at hev
        subst hev
        simp [finalize_release_bump, hb]
      · simpa using hb
  · simpa using hb
  · simpa using hb

lemma runE_no_release_bump (e : DrillEngine) (trace : List (ℚ × ℚ))
    (h : e.release_bump = false) :
    (runE e trace).1.release_bump = false ∧
    ∀ ev ∈ (runE e trace).2, ev.metrics.release_bump = false := by
  induction trace generalizing e with
  | nil => exact ⟨h, by simp [runE]⟩
  | cons s rest ih =>
    obtain ⟨t, b⟩ := s
    obtain ⟨h1, h2⟩ := update_no_release_bump e t b h
    obtain ⟨h3, h4⟩ := ih (update e t b).1 h1
    refine ⟨by simpa [runE] using h3, ?_⟩
    intro ev hev
    simp only [runE, List.mem_append] at hev
    rcases hev with hev | hev
    · exact h2 ev hev
    · exact h4 ev hev

/-- C1: the spec requires that a sample within 200 ms of `first_inband_t`
with value below `target − CORRECT_PCT` makes the rep carry
`early_correction = true` and fail (Scenario D).  The code disagrees: on
`traceA` the band is entered at `t = 100` and the `t = 150` sample has
`b = 0.70 < 0.74 = target − 6%`, yet the emitted metrics carry
`early_correction = false` and the rep passes, because the dip leaves the
band and the engine moves to RELEASE without ever checking the dip. -/
theorem C1_early_correction_scenarioD :
    ((150 : ℚ) - 100 ≤ 200 ∧ (7/10 : ℚ) < (cfgD.target_pct : ℚ)/100 - CORRECT_PCT) ∧
    (runE (mkEngine cfgD) [(0, 0), (10, 1/2), (100, 8/10)]).1.first_inband_t = some 100 ∧
    (runE (mkEngine cfgD) traceA).2 = [evA] ∧
    evA.metrics.early_correction = false ∧ evA.passed = true := by
  have h3 : runE (mkEngine cfgD) [(0, 0), (10, 1/2), (100, 8/10)] = (eA3, []) := by
    simp only [runE, stepA1, stepA2, stepA3, List.nil_append, List.append_nil]
  refine ⟨⟨by norm_num, by norm_num [cfgD, CORRECT_PCT]⟩, ?_, by rw [runA], rfl, rfl⟩
  rw [h3]
  simp [eA3, eA2]

/-- C2: the spec requires an upward jump of at least `RELBUMP_PCT` between
consecutive samples in RELEASE to set `release_bump = true`.  The code
compares `b` against `last_b` after `last_b` has already been overwritten
with `b`, so the flag is never set: every run from a fresh engine ends with
`release_bump = false` and every emitted event carries
`release_bump = false`. -/
theorem C2_release_bump_never_set :
    ∀ (cfg : DrillConfig) (trace : List (ℚ × ℚ)),
      (runE (mkEngine cfg) trace).1.release_bump = false ∧
      ∀ ev ∈ (runE (mkEngine cfg) trace).2, ev.metrics.release_bump = false :=
  fun cfg trace => runE_no_release_bump (mkEngine cfg) trace rfl

/-- Witness for C2 on `traceB`, whose `t = 200` sample jumps by `+0.2`
while the engine is in RELEASE. -/
theorem C2_release_bump_never_set_witness :
    evA ∈ (runE (mkEngine cfgD) traceB).2 ∧ evA.metrics.release_bump = false := by
  have hmem : evA ∈ (runE (mkEngine cfgD) traceB).2 := by rw [runB]; simp
  exact ⟨hmem, (C2_release_bump_never_set cfgD traceB).2 evA hmem⟩

/-- C7: the first `EMA.step` after construction or after `reset` returns
exactly the input value and seeds `y` (the last value) and `t` (the last
time) with the current sample. -/
theorem C7_ema_cold_start :
    (∀ (ms x now : ℚ), (mkEMA ms).step x now =
      (x, { mkEMA ms with isInit := true, y := x, t := some now })) ∧
    (∀ (e : EMA) (x now : ℚ), e.reset.step x now =
      (x, { e.reset with isInit := true, y := x, t := some now })) := by
  constructor <;> intro a x now <;> simp [EMA.step, EMA.reset, mkEMA]

/-- C9: `summary` reports `completed_goal` from `best`, not from the
current streak: `summary()['completed_goal'] = (best ≥ goal)` always, and
after one pass followed by one fail with `goal = 1` the summary says the
goal was completed while `complete()` is false. -/
theorem C9_summary_uses_best :
    (∀ s : StreakTracker, s.summary.completed_goal = decide (s.best ≥ s.goal)) ∧
    (runTracker (mkTracker 1) [(0, true), (10, false)]).summary.completed_goal = true ∧
    (runTracker (mkTracker 1) [(0, true), (10, false)]).complete = false := by
  refine ⟨fun s => rfl, ?_, ?_⟩ <;>
    simp [runTracker, StreakTracker.note_rep, StreakTracker.summary,
      StreakTracker.complete, mkTracker]

/-- C10: one `update` call emits at most one event, and when it does emit,
the same call resets the per-rep state (state `IDLE`, all per-rep
timestamps, peak, overshoot, both sticky flags and the crossing list back
to their initial values) while `last_t`/`last_b` keep the current sample. -/
theorem C10_emit_resets :
    ∀ (e : DrillEngine) (t b : ℚ),
      (update e t b).2.length ≤ 1 ∧
      ((update e t b).2 ≠ [] →
        (update e t b).1.state = EState.IDLE ∧
        (update e t b).1.onset_t = none ∧
        (update e t b).1.first_inband_t = none ∧
        (update e t b).1.last_inband_t = none ∧
        (update e t b).1.end_candidate_t = none ∧
        (update e t b).1.peak = 0 ∧
        (update e t b).1.overshoot = 0 ∧
        (update e t b).1.did_correction = false ∧
        (update e t b).1.crosses = [] ∧
        (update e t b).1.release_bump = false ∧
        (update e t b).1.last_t = some t ∧
        (update e t b).1.last_b = b) := by
  intro e t b
  have hlt : (updState (updPeak (updCross e t b) b) t b).last_t = some t := by
    rw [updState_last_t, updPeak_last_t, updCross_last_t]
  have hlb : (updState (updPeak (updCross e t b) b) t b).last_b = b := by
    rw [updState_last_b, updPeak_last_b, updCross_last_b]
  unfold update updEnd
  split_ifs with h1 h2
  · rcases hec : (updState (updPeak (updCross e t b) b) t b).end_candidate_t with _ | tc
    · dsimp only
      exact ⟨by simp, by simp⟩
    · dsimp only
      split_ifs with h3
      · refine ⟨by simp, fun hne => ?_⟩
        simp [DrillEngine.reset_rep, hlt, hlb]
      · exact ⟨by simp, by simp⟩
  · exact ⟨by simp, by simp⟩
  · exact ⟨by simp, by simp⟩

/-- Witness for C10 at the emitting call of `traceA`. -/
theorem C10_emit_resets_witness :
    (update eA5 850 0).2 ≠ [] ∧
    (update eA5 850 0).1.state = EState.IDLE ∧
    (update eA5 850 0).1.last_t = some 850 ∧
    (update eA5 850 0).1.last_b = 0 := by
  have hne : (update eA5 850 0).2 ≠ [] := by rw [stepA6]; simp
  obtain ⟨-, h⟩ := C10_emit_resets eA5 850 0
  obtain ⟨hs, -, -, -, -, -, -, -, -, -, hlt, hlb⟩ := h hne
  exact ⟨hne, hs, hlt, hlb⟩

/-- The intermediate value `x` of `_map_norm` after clamping, scaling and
optional inversion. -/
def normX (v : ℤ) (cfg : NormCfg) : ℚ :=
  if cfg.invert then 1 - _raw01_from_uint v else _raw01_from_uint v

/-- The `floor = min(0.98, zero_raw + deadzone)` of `_map_norm`. -/
def normFloor (cfg : NormCfg) : ℚ :=
  min (98/100) (cfg.zero_raw + cfg.deadzone)

lemma map_norm_eq (v : ℤ) (cfg : NormCfg) :
    _map_norm v cfg =
      if normX v cfg ≤ normFloor cfg then 0
      else if 1 - normFloor cfg ≤ 1/1000000000 then 0
      else max 0 (min 1 ((normX v cfg - normFloor cfg) / (1 - normFloor cfg))) := by
  unfold _map_norm normX normFloor
  rfl

lemma normFloor_den (cfg : NormCfg) : ¬(1 - normFloor cfg ≤ 1/1000000000) := by
  have h : normFloor cfg ≤ 98/100 := min_le_left _ _
  intro hc
  linarith

lemma raw01_bounds (v : ℤ) : 0 ≤ _raw01_from_uint v ∧ _raw01_from_uint v ≤ 1 := by
  unfold _raw01_from_uint
  by_cases h1 : v < 0
  · simp only [if_pos h1]
    norm_num
  · simp only [if_neg h1]
    by_cases h2 : v > 65535
    · simp only [if_pos h2]
      norm_num
    · simp only [if_neg h2]
      constructor
      · apply div_nonneg _ (by norm_num)
        exact_mod_cast Int.not_lt.mp h1
      · rw [div_le_one (by norm_num)]
        exact_mod_cast Int.not_lt.mp h2

/-- C5: `_map_norm` clamps the raw count into `0..65535` and scales it to
`[0,1]`, reflects when `invert` is set, takes `floor = min(0.98,
zero_raw + deadzone)`, returns exactly 0 in the dead zone or under the
degenerate-calibration guard, otherwise rescales linearly with clamping;
the result is always in `[0,1]`, and Scenario A (`raw = 0`, deadzone
`0.02`, `zero_raw = 0`) gives exactly 0. -/
theorem C5_map_norm_spec :
    (∀ (v : ℤ) (cfg : NormCfg),
      (0 ≤ _raw01_from_uint v ∧ _raw01_from_uint v ≤ 1) ∧
      0 ≤ _map_norm v cfg ∧ _map_norm v cfg ≤ 1) ∧
    (∀ (v : ℤ) (cfg : NormCfg),
      (normX v cfg ≤ normFloor cfg ∨ 1 - normFloor cfg ≤ 1/1000000000 →
        _map_norm v cfg = 0) ∧
      (¬(normX v cfg ≤ normFloor cfg) →
        _map_norm v cfg =
          max 0 (min 1 ((normX v cfg - normFloor cfg) / (1 - normFloor cfg))))) ∧
    _map_norm 0 { invert := false, deadzone := 2/100, zero_raw := 0 } = 0 := by
  refine ⟨fun v cfg => ⟨raw01_bounds v, ?_⟩, fun v cfg => ⟨?_, ?_⟩, ?_⟩
  · rw [map_norm_eq]
    split_ifs
    · norm_num
    · norm_num
    · exact ⟨le_max_left _ _, max_le (by norm_num) (min_le_left _ _)⟩
  · intro h
    rw [map_norm_eq]
    split_ifs with h1 h2
    · rfl
    · rfl
    · rcases h with h | h
      · exact absurd h h1
      · exact absurd h h2
  · intro h
    rw [map_norm_eq]
    rw [if_neg h, if_neg (normFloor_den cfg)]
  · rw [map_norm_eq]
    rw [if_pos]
    norm_num [normX, normFloor, _raw01_from_uint]

/-- Witness for C5: the dead-zone case at `raw = 0` and the linear-rescale
case at `raw = 65535` under the default calibration. -/
theorem C5_map_norm_spec_witness :
    (normX 0 { invert := false, deadzone := 2/100, zero_raw := 0 } ≤
      normFloor { invert := false, deadzone := 2/100, zero_raw := 0 } ∧
     _map_norm 0 { invert := false, deadzone := 2/100, zero_raw := 0 } = 0) ∧
    (¬(normX 65535 { invert := false, deadzone := 2/100, zero_raw := 0 } ≤
      normFloor { invert := false, deadzone := 2/100, zero_raw := 0 }) ∧
     _map_norm 65535 { invert := false, deadzone := 2/100, zero_raw := 0 } =
       max 0 (min 1 ((normX 65535 { invert := false, deadzone := 2/100, zero_raw := 0 } -
         normFloor { invert := false, deadzone := 2/100, zero_raw := 0 }) /
         (1 - normFloor { invert := false, deadzone := 2/100, zero_raw := 0 })))) := by
  have h0 : normX 0 { invert := false, deadzone := 2/100, zero_raw := 0 } ≤
      normFloor { invert := false, deadzone := 2/100, zero_raw := 0 } := by
    norm_num [normX, normFloor, _raw01_from_uint]
  have h1 : ¬(normX 65535 { invert := false, deadzone := 2/100, zero_raw := 0 } ≤
      normFloor { invert := false, deadzone := 2/100, zero_raw := 0 }) := by
    norm_num [normX, normFloor, _raw01_from_uint]
  exact ⟨⟨h0, (C5_map_norm_spec.2.1 0 _).1 (Or.inl h0)⟩,
    ⟨h1, (C5_map_norm_spec.2.1 65535 _).2 h1⟩⟩

set_option maxHeartbeats 6400000 in
/-- Characterization of `_passed` as the conjunction of the nine pass/fail
checks of the spec. -/
lemma passed_iff_checks : ∀ (cfg : DrillConfig) (m : RepMetrics),
      _passed cfg m = true ↔
        ((∃ t, m.ttb_ms = some t ∧ t ≤ 400 ∧
          (cfg.app_goal = AppGoal.FAST → t ≤ FAST_MAX_MS) ∧
          (cfg.app_goal = AppGoal.MEDIUM → FAST_MAX_MS < t ∧ t ≤ MED_MAX_MS)) ∧
         m.overshoot_pct ≤ OVER_PCT * 100 ∧
         m.early_correction = false ∧
         (cfg.hold_required_ms > 0 →
           max HOLD_MIN_MS (cfg.hold_required_ms : ℚ) ≤ m.hold_ms) ∧
         (∃ r, m.release_ms = some r ∧
           (cfg.release_goal = RelGoal.MEDIUM → REL_MED_MIN ≤ r ∧ r ≤ REL_MED_MAX) ∧
           (cfg.release_goal = RelGoal.SLOW → r ≥ REL_SLOW_MIN)) ∧
         m.release_bump = false ∧
         m.oscillations < OSC_MIN_CROSS) := by
    intro cfg m
    rcases hT : m.ttb_ms with _ | ttb
    · refine iff_of_false ?_ ?_
      · simp only [_passed, hT]
        simp
      · rintro ⟨⟨t, ht, -⟩, -⟩
        exact Option.noConfusion ht
    · rcases hR : m.release_ms with _ | rm
      · refine iff_of_false ?_ ?_
        · simp only [_passed, hT, hR, ite_self]
          simp
        · rintro ⟨-, -, -, -, ⟨r, hr, -⟩, -⟩
          exact Option.noConfusion hr
      · simp only [_passed, hT, hR, Option.some_inj, exists_eq_left']
        split_ifs with h1 h2 h3 h4 h5 h6 h7 h8 h9 h10
        · refine iff_of_false (by simp) ?_
          rintro ⟨⟨h400, -, -⟩, -⟩
          linarith
        · refine iff_of_false (by simp) ?_
          rintro ⟨⟨-, hF, -⟩, -⟩
          exact h2.2 (hF h2.1)
        · refine iff_of_false (by simp) ?_
          rintro ⟨⟨-, -, hM⟩, -⟩
          exact h3.2 (hM h3.1)
        · refine iff_of_false (by simp) ?_
          rintro ⟨-, hOv, -⟩
          linarith
        · refine iff_of_false (by simp) ?_
          rintro ⟨-, -, hEc, -⟩
          rw [h5] at hEc
          exact Bool.noConfusion hEc
        · refine iff_of_false (by simp) ?_
          rintro ⟨-, -, -, hH, -⟩
          have := hH h6.1
          have := h6.2
          linarith
        · refine iff_of_false (by simp) ?_
          rintro ⟨-, -, -, -, ⟨hRM, -⟩, -⟩
          exact h7.2 (hRM h7.1)
        · refine iff_of_false (by simp) ?_
          rintro ⟨-, -, -, -, ⟨-, hRS⟩, -⟩
          exact h8.2 (hRS h8.1)
        · refine iff_of_false (by simp) ?_
          rintro ⟨-, -, -, -, -, hBump, -⟩
          rw [h9] at hBump
          exact Bool.noConfusion hBump
        · refine iff_of_false (by simp) ?_
          rintro ⟨-, -, -, -, -, -, hOsc⟩
          exact absurd hOsc (not_lt.mpr h10)
        · refine iff_of_true (by trivial)
            ⟨⟨not_lt.mp h1, fun hf => ?_, fun hm => ?_⟩, not_lt.mp h4, ?_,
              fun hreq => ?_, ⟨fun hrm => ?_, fun hrs => ?_⟩, ?_, not_le.mp h10⟩
          · by_contra hb
            exact h2 ⟨hf, hb⟩
          · by_contra hb
            exact h3 ⟨hm, hb⟩
          · exact Bool.eq_false_iff.mpr h5
          · by_contra hb
            exact h6 ⟨hreq, not_le.mp hb⟩
          · by_contra hb
            exact h7 ⟨hrm, hb⟩
          · by_contra hb
            exact h8 ⟨hrs, hb⟩
          · exact Bool.eq_false_iff.mpr h9

/-- C4: `_passed` is the conjunction of the nine spec checks: time-to-band
non-null and within 400 ms, application-goal window, overshoot at most 6%,
no early correction, hold requirement, release non-null, release-goal
window, no release bump, fewer than 3 oscillations; in particular with
`app_goal = FAST` a time-to-band of 300 ms fails (Scenario C). -/
theorem C4_passed_iff_nine_checks :
    (∀ (cfg : DrillConfig) (m : RepMetrics),
      _passed cfg m = true ↔
        ((∃ t, m.ttb_ms = some t ∧ t ≤ 400 ∧
          (cfg.app_goal = AppGoal.FAST → t ≤ FAST_MAX_MS) ∧
          (cfg.app_goal = AppGoal.MEDIUM → FAST_MAX_MS < t ∧ t ≤ MED_MAX_MS)) ∧
         m.overshoot_pct ≤ OVER_PCT * 100 ∧
         m.early_correction = false ∧
         (cfg.hold_required_ms > 0 →
           max HOLD_MIN_MS (cfg.hold_required_ms : ℚ) ≤ m.hold_ms) ∧
         (∃ r, m.release_ms = some r ∧
           (cfg.release_goal = RelGoal.MEDIUM → REL_MED_MIN ≤ r ∧ r ≤ REL_MED_MAX) ∧
           (cfg.release_goal = RelGoal.SLOW → r ≥ REL_SLOW_MIN)) ∧
         m.release_bump = false ∧
         m.oscillations < OSC_MIN_CROSS)) ∧
    (∀ (cfg : DrillConfig) (m : RepMetrics),
      cfg.app_goal = AppGoal.FAST → m.ttb_ms = some 300 → _passed cfg m = false) := by
  refine ⟨fun cfg m => passed_iff_checks cfg m, fun cfg m hf ht => ?_⟩
  rcases hpass : _passed cfg m with _ | _
  · rfl
  · exfalso
    obtain ⟨⟨t, hts, -, hFimp, -⟩, -⟩ := (passed_iff_checks cfg m).mp hpass
    rw [ht] at hts
    obtain rfl : (300 : ℚ) = t := Option.some_inj.mp hts
    have h120 := hFimp hf
    norm_num [FAST_MAX_MS] at h120

/-- Witness for C4: Scenario C instantiated at the concrete metrics emitted
on `traceC` but graded under the FAST configuration. -/
theorem C4_passed_iff_nine_checks_witness :
    cfgD.app_goal = AppGoal.FAST ∧
    ({ evC.metrics with ttb_ms := some 300 } : RepMetrics).ttb_ms = some 300 ∧
    _passed cfgD { evC.metrics with ttb_ms := some 300 } = false :=
  ⟨rfl, rfl, C4_passed_iff_nine_checks.2 cfgD { evC.metrics with ttb_ms := some 300 } rfl rfl⟩

lemma ite_singleton_eq_nil {α : Type} {c : Prop} [Decidable c] {x : α} :
    (if c then [x] else []) = [] ↔ ¬c := by
  split_ifs with h <;> simp [h]

lemma ite_ite_singleton_eq_nil {α : Type} {c1 c2 : Prop} [Decidable c1] [Decidable c2]
    {a b : α} :
    (if c1 then [a] else if c2 then [b] else []) = [] ↔ ¬c1 ∧ ¬c2 := by
  split_ifs with h1 h2 <;> simp [*]

/-- The message list of `feedback_for` is empty exactly when none of the
diagnostic conditions fires. -/
lemma feedback_msgs_eq_nil_iff (m : RepMetrics) (cfg : DrillConfig) (ttb rm : ℚ)
    (hT : m.ttb_ms = some ttb) (hR : m.release_ms = some rm) :
    feedback_msgs m cfg = [] ↔
      ((¬(cfg.app_goal = AppGoal.FAST ∧ ttb > FAST_MAX_MS) ∧
        ¬(cfg.app_goal = AppGoal.MEDIUM ∧ ¬(FAST_MAX_MS < ttb ∧ ttb ≤ MED_MAX_MS))) ∧
       ¬(m.overshoot_pct > OVER_PCT * 100) ∧
       ¬(m.early_correction = true) ∧
       ¬(m.oscillations ≥ OSC_MIN_CROSS) ∧
       (¬(cfg.release_goal = RelGoal.MEDIUM ∧ ¬(REL_MED_MIN ≤ rm ∧ rm ≤ REL_MED_MAX)) ∧
        ¬(cfg.release_goal = RelGoal.SLOW ∧ rm < REL_SLOW_MIN)) ∧
       ¬(m.release_bump = true) ∧
       ¬(cfg.hold_required_ms > 0 ∧ m.hold_ms < max HOLD_MIN_MS (cfg.hold_required_ms : ℚ))) := by
  simp only [feedback_msgs, hT, hR, List.append_eq_nil, ite_singleton_eq_nil,
    ite_ite_singleton_eq_nil, and_assoc]

/-- `feedback_for` is the affirmative text exactly when the message list is
empty. -/
lemma feedback_for_affirmative_iff (m : RepMetrics) (cfg : DrillConfig) :
    feedback_for m cfg = FeedbackText.affirmative ↔ feedback_msgs m cfg = [] := by
  unfold feedback_for
  split_ifs with h <;> simp [h]

/-- Guarded equivalence between the affirmative feedback text and the pass
verdict. -/
lemma affirmative_iff_passed (m : RepMetrics) (cfg : DrillConfig)
    (hrel : m.release_ms = none → m.ttb_ms = none)
    (h400 : cfg.app_goal = AppGoal.ANY → ∀ t, m.ttb_ms = some t → t ≤ 400) :
    feedback_for m cfg = FeedbackText.affirmative ↔ _passed cfg m = true := by
  rw [feedback_for_affirmative_iff]
  rcases hT : m.ttb_ms with _ | ttb
  · refine iff_of_false ?_ ?_
    · simp [feedback_msgs, hT]
    · simp [_passed, hT]
  · rcases hR : m.release_ms with _ | rm
    · have hcontra := hrel hR
      rw [hT] at hcontra
      exact absurd hcontra (by simp)
    · rw [feedback_msgs_eq_nil_iff m cfg ttb rm hT hR, passed_iff_checks]
      constructor
      · rintro ⟨⟨hA, hM⟩, hOv, hEc, hOsc, ⟨hRM, hRS⟩, hBump, hHold⟩
        refine ⟨⟨ttb, hT, ?_, ?_, ?_⟩, not_lt.mp hOv, Bool.eq_false_iff.mpr hEc, ?_,
          ⟨rm, hR, ?_, ?_⟩, Bool.eq_false_iff.mpr hBump, not_le.mp hOsc⟩
        · cases hg : cfg.app_goal
          case FAST =>
            have hle : ¬ ttb > FAST_MAX_MS := fun hgt => hA ⟨hg, hgt⟩
            have hle' := not_lt.mp hle
            norm_num [FAST_MAX_MS] at hle'
            linarith
          case MEDIUM =>
            have hwin : FAST_MAX_MS < ttb ∧ ttb ≤ MED_MAX_MS :=
              not_not.mp (fun hn => hM ⟨hg, hn⟩)
            have h250 := hwin.2
            norm_num [MED_MAX_MS] at h250
            linarith
          case ANY => exact h400 hg ttb hT
        · intro hf
          by_contra hb
          exact hA ⟨hf, not_le.mp hb⟩
        · intro hm
          exact not_not.mp (fun hn => hM ⟨hm, hn⟩)
        · intro hreq
          by_contra hb
          exact hHold ⟨hreq, not_le.mp hb⟩
        · intro hrm
          exact not_not.mp (fun hn => hRM ⟨hrm, hn⟩)
        · intro hrs
          by_contra hb
          exact hRS ⟨hrs, not_le.mp hb⟩
      · rintro ⟨⟨t, hts, h400', hF, hM⟩, hOv, hEc, hHold, ⟨r, hrs', hRM, hRS⟩, hBump, hOsc⟩
        rw [hT] at hts
        obtain rfl : ttb = t := Option.some_inj.mp hts
        rw [hR] at hrs'
        obtain rfl : rm = r := Option.some_inj.mp hrs'
        refine ⟨⟨?_, ?_⟩, not_lt.mpr hOv, ?_, not_le.mpr hOsc, ⟨?_, ?_⟩, ?_, ?_⟩
        · rintro ⟨hf, hgt⟩
          exact absurd (hF hf) (not_le.mpr hgt)
        · rintro ⟨hm, hn⟩
          exact hn (hM hm)
        · rw [hEc]
          simp
        · rintro ⟨hm, hn⟩
          exact hn (hRM hm)
        · rintro ⟨hs, hlt⟩
          exact absurd (hRS hs) (not_le.mpr hlt)
        · rw [hBump]
          simp
        · rintro ⟨hreq, hlt⟩
          exact absurd (hHold hreq) (not_le.mpr hlt)

/-- C3 counterexample: on `traceC` (band reached only after 500 ms) under a
configuration with both goals `ANY`, the engine emits a rep with
`passed = false` (the 400 ms ceiling fails) while `feedback_for` returns
the affirmative message, so the claimed equivalence is false for this
finalized metrics record. -/
theorem C3_affirmative_despite_fail :
    (runE (mkEngine cfgAny) traceC).2 = [evC] ∧
    evC.passed = false ∧
    _passed cfgAny evC.metrics = false ∧
    feedback_for evC.metrics cfgAny = FeedbackText.affirmative := by
  refine ⟨by rw [runC], rfl, ?_, ?_⟩
  · norm_num [_passed, evC, cfgAny]
  · rw [feedback_for_affirmative_iff]
    norm_num [feedback_msgs, evC, cfgAny, OVER_PCT, OSC_MIN_CROSS, FAST_MAX_MS, MED_MAX_MS]
    simp

/-- C3 amended: `feedback_for(m, cfg)` returns the affirmative message iff
the rep passes, provided `release_ms` is null only when `ttb_ms` is null
(true of every finalized record) and excluding the case `app_goal = ANY`
with `ttb_ms > 400`, where the rep fails the 400 ms ceiling but no message
is produced; moreover every rejection reason that holds contributes its
corresponding message to the returned text. -/
theorem C3_feedback_affirmative_iff_passed :
    (∀ (m : RepMetrics) (cfg : DrillConfig),
      (m.release_ms = none → m.ttb_ms = none) →
      (cfg.app_goal = AppGoal.ANY → ∀ t, m.ttb_ms = some t → t ≤ 400) →
      (feedback_for m cfg = FeedbackText.affirmative ↔ _passed cfg m = true)) ∧
    (∀ (m : RepMetrics) (cfg : DrillConfig), m.ttb_ms = none →
      FbMsg.neverReached ∈ feedback_msgs m cfg) ∧
    (∀ (m : RepMetrics) (cfg : DrillConfig) (t : ℚ),
      cfg.app_goal = AppGoal.FAST → m.ttb_ms = some t → t > FAST_MAX_MS →
      FbMsg.appTooSlow t ∈ feedback_msgs m cfg) ∧
    (∀ (m : RepMetrics) (cfg : DrillConfig) (t : ℚ),
      cfg.app_goal = AppGoal.MEDIUM → m.ttb_ms = some t →
      ¬(FAST_MAX_MS < t ∧ t ≤ MED_MAX_MS) →
      FbMsg.appOffTarget t ∈ feedback_msgs m cfg) ∧
    (∀ (m : RepMetrics) (cfg : DrillConfig), m.overshoot_pct > OVER_PCT * 100 →
      FbMsg.overshootHigh m.overshoot_pct ∈ feedback_msgs m cfg) ∧
    (∀ (m : RepMetrics) (cfg : DrillConfig), m.early_correction = true →
      FbMsg.earlyCorrectionMsg ∈ feedback_msgs m cfg) ∧
    (∀ (m : RepMetrics) (cfg : DrillConfig), m.oscillations ≥ OSC_MIN_CROSS →
      FbMsg.oscillationMsg ∈ feedback_msgs m cfg) ∧
    (∀ (m : RepMetrics) (cfg : DrillConfig) (r : ℚ),
      cfg.release_goal = RelGoal.MEDIUM → m.release_ms = some r →
      ¬(REL_MED_MIN ≤ r ∧ r ≤ REL_MED_MAX) →
      FbMsg.releaseOff r ∈ feedback_msgs m cfg) ∧
    (∀ (m : RepMetrics) (cfg : DrillConfig) (r : ℚ),
      cfg.release_goal = RelGoal.SLOW → m.release_ms = some r → r < REL_SLOW_MIN →
      FbMsg.releaseTooFast r ∈ feedback_msgs m cfg) ∧
    (∀ (m : RepMetrics) (cfg : DrillConfig), m.release_bump = true →
      FbMsg.releaseBumpMsg ∈ feedback_msgs m cfg) ∧
    (∀ (m : RepMetrics) (cfg : DrillConfig), cfg.hold_required_ms > 0 →
      m.hold_ms < max HOLD_MIN_MS (cfg.hold_required_ms : ℚ) →
      FbMsg.holdShort m.hold_ms (max HOLD_MIN_MS (cfg.hold_required_ms : ℚ)) ∈
        feedback_msgs m cfg) := by
  refine ⟨fun m cfg h1 h2 => affirmative_iff_passed m cfg h1 h2,
    ?_, ?_, ?_, ?_, ?_, ?_, ?_, ?_, ?_, ?_⟩
  · intro m cfg hT
    simp [feedback_msgs, hT]
  · intro m cfg t hf hT hgt
    simp [feedback_msgs, hT, hf, hgt]
  · intro m cfg t hm hT hn
    simp [feedback_msgs, hT, hm, hn]
  · intro m cfg hOv
    simp [feedback_msgs, hOv]
  · intro m cfg hEc
    simp [feedback_msgs, hEc]
  · intro m cfg hOsc
    simp [feedback_msgs, hOsc]
  · intro m cfg r hm hR hn
    simp [feedback_msgs, hR, hm, hn]
  · intro m cfg r hs hR hlt
    simp [feedback_msgs, hR, hs, hlt]
  · intro m cfg hBump
    simp [feedback_msgs, hBump]
  · intro m cfg hreq hlt
    simp [feedback_msgs, hreq, hlt]

/-- Witness for C3: the guarded equivalence applied to the metrics of
`traceA` under the default FAST config, and the never-reached message for a
metrics record whose band was never reached. -/
theorem C3_feedback_affirmative_iff_passed_witness :
    (evA.metrics.release_ms = none → evA.metrics.ttb_ms = none) ∧
    (cfgD.app_goal = AppGoal.ANY → ∀ t, evA.metrics.ttb_ms = some t → t ≤ 400) ∧
    (feedback_for evA.metrics cfgD = FeedbackText.affirmative ↔
      _passed cfgD evA.metrics = true) ∧
    ({ evA.metrics with ttb_ms := none } : RepMetrics).ttb_ms = none ∧
    FbMsg.neverReached ∈ feedback_msgs { evA.metrics with ttb_ms := none } cfgD := by
  have h1 : evA.metrics.release_ms = none → evA.metrics.ttb_ms = none := by
    intro h
    exact absurd h (by simp [evA])
  have h2 : cfgD.app_goal = AppGoal.ANY → ∀ t, evA.metrics.ttb_ms = some t → t ≤ 400 := by
    intro h
    exact absurd h (by simp [cfgD])
  exact ⟨h1, h2, C3_feedback_affirmative_iff_passed.1 evA.metrics cfgD h1 h2, rfl,
    C3_feedback_affirmative_iff_passed.2.1 { evA.metrics with ttb_ms := none } cfgD rfl⟩

lemma updEnd_cfg (e : DrillEngine) (t b : ℚ) : (updEnd e t b).1.cfg = e.cfg := by
  rcases hec : e.end_candidate_t with _ | tc <;>
    simp only [updEnd, hec] <;> split_ifs <;> simp [DrillEngine.reset_rep]

lemma update_cfg (e : DrillEngine) (t b : ℚ) : (update e t b).1.cfg = e.cfg := by
  unfold update
  rw [updEnd_cfg, updState_cfg, updPeak_cfg, updCross_cfg]

/-- The composite of the three pre-end blocks leaves the end candidate
untouched. -/
lemma pipeline_cand (e : DrillEngine) (t b : ℚ) :
    (updState (updPeak (updCross e t b) b) t b).end_candidate_t = e.end_candidate_t := by
  rw [updState_end_candidate, updPeak_end_candidate, updCross_end_candidate]

lemma updState_state_eq_idle (e : DrillEngine) (t b : ℚ)
    (h : (updState e t b).state = EState.IDLE) :
    e.state = EState.IDLE ∧ b < e.cfg.onset_thresh := by
  obtain ⟨c, st, lt, lb, ot, ft, lit, ect, pk, ov, dc, cr, rb⟩ := e
  cases st <;> simp only [updState] at h ⊢ <;> split_ifs at h with hc <;>
    simp_all [not_le]

lemma pipeline_state_eq_idle (e : DrillEngine) (t b : ℚ)
    (h : (updState (updPeak (updCross e t b) b) t b).state = EState.IDLE) :
    e.state = EState.IDLE ∧ b < e.cfg.onset_thresh := by
  obtain ⟨h1, h2⟩ := updState_state_eq_idle _ t b h
  rw [updPeak_state, updCross_state] at h1
  rw [updPeak_cfg, updCross_cfg] at h2
  exact ⟨h1, h2⟩

lemma estate_ne_idle_iff (s : EState) :
    s ≠ EState.IDLE ↔ (s = EState.APPLY ∨ s = EState.IN_BAND ∨ s = EState.RELEASE) := by
  cases s <;> simp

/-- Invariant tying a live end candidate to the sample stream consumed so
far: the candidate timestamp is the time of an earlier sample, every sample
from that one on stayed strictly below the onset threshold, and an engine
sitting in IDLE has no candidate. -/
def CandInv (cfg : DrillConfig) (e : DrillEngine) (pre : List (ℚ × ℚ)) : Prop :=
  (∀ tc, e.end_candidate_t = some tc →
    ∃ k, ∃ h : k < pre.length, (pre.get ⟨k, h⟩).1 = tc ∧
      ∀ x ∈ pre.drop k, x.2 < cfg.onset_thresh) ∧
  (e.state = EState.IDLE → e.end_candidate_t = none)

lemma candInv_step (cfg : DrillConfig) (e : DrillEngine) (pre : List (ℚ × ℚ))
    (t b : ℚ) (hcfg : e.cfg = cfg) (hinv : CandInv cfg e pre) :
    CandInv cfg (update e t b).1 (pre ++ [(t, b)]) := by
  have hcand := pipeline_cand e t b
  have hcfg3 : (updState (updPeak (updCross e t b) b) t b).cfg = cfg := by
    rw [updState_cfg, updPeak_cfg, updCross_cfg, hcfg]
  unfold update updEnd
  split_ifs with h1 h2
  · rcases hec : (updState (updPeak (updCross e t b) b) t b).end_candidate_t with _ | tc
    · dsimp only
      constructor
      · intro tc' htc'
        simp only at htc'
        obtain rfl : t = tc' := Option.some_inj.mp htc'
        refine ⟨pre.length, by simp, by simp, ?_⟩
        intro x hx
        rw [List.drop_append_of_le_length le_rfl] at hx
        simp only [List.drop_length, List.nil_append, List.mem_singleton] at hx
        subst hx
        rw [hcfg3] at h2
        exact h2
      · intro hst
        rcases h1 with h | h | h <;> simp only at hst <;> rw [hst] at h <;> exact EState.noConfusion h
    · dsimp only
      split_ifs with h3
      · exact ⟨fun tc' htc' => by simp [DrillEngine.reset_rep] at htc', fun _ => by simp [DrillEngine.reset_rep]⟩
      · constructor
        · intro tc' htc'
          dsimp only at htc'
          obtain rfl : tc = tc' := Option.some_inj.mp (hec.symm.trans htc')
          obtain ⟨k, hk, hget, hbelow⟩ := hinv.1 tc (hcand.symm.trans hec)
          refine ⟨k, by simp only [List.length_append, List.length_singleton]; omega, ?_, ?_⟩
          · rw [List.get_append _ hk] at *
            exact hget
          · intro x hx
            rw [List.drop_append_of_le_length (le_of_lt hk)] at hx
            rcases List.mem_append.mp hx with hx | hx
            · exact hbelow x hx
            · simp only [List.mem_singleton] at hx
              subst hx
              rw [hcfg3] at h2
              exact h2
        · intro hst
          rcases h1 with h | h | h <;> rw [hst] at h <;> exact EState.noConfusion h
  · dsimp only
    constructor
    · intro tc' htc'
      simp only at htc'
      exact absurd htc' (by simp)
    · intro _
      rfl
  · have hidle : (updState (updPeak (updCross e t b) b) t b).state = EState.IDLE := by
      by_contra hni
      exact h1 ((estate_ne_idle_iff _).mp hni)
    obtain ⟨hest, -⟩ := pipeline_state_eq_idle e t b hidle
    have hnone := hinv.2 hest
    constructor
    · intro tc' htc'
      rw [hcand, hnone] at htc'
      exact Option.noConfusion htc'
    · intro _
      rw [hcand, hnone]

lemma runE_concat (e : DrillEngine) (l : List (ℚ × ℚ)) (t b : ℚ) :
    runE e (l ++ [(t, b)]) =
      ((update (runE e l).1 t b).1, (runE e l).2 ++ (update (runE e l).1 t b).2) := by
  induction l generalizing e with
  | nil => simp [runE]
  | cons s rest ih =>
    obtain ⟨t', b'⟩ := s
    simp [runE, ih]

lemma candInv_runE (cfg : DrillConfig) (pre : List (ℚ × ℚ)) :
    CandInv cfg (runE (mkEngine cfg) pre).1 pre ∧ (runE (mkEngine cfg) pre).1.cfg = cfg := by
  induction pre using List.reverseRecOn with
  | nil =>
    refine ⟨⟨fun tc htc => ?_, fun _ => rfl⟩, rfl⟩
    exact absurd htc (by simp [runE, mkEngine])
  | append_singleton l s ih =>
    obtain ⟨t, b⟩ := s
    rw [runE_concat]
    exact ⟨candInv_step cfg _ l t b ih.2 ih.1, by rw [update_cfg, ih.2]⟩

/-- C6: a `rep_complete` event fires at a sample `(t, b)` only if the
engine was already out of IDLE, the current value is still below the onset
threshold, and some earlier sample `k` started an end candidate such that
every sample since `k` stayed strictly below the onset threshold and the
hysteresis `t − t_k ≥ end_hysteresis_ms` has elapsed; and any sample at or
above the onset threshold cancels the candidate and emits nothing. -/
theorem C6_end_hysteresis :
    (∀ (cfg : DrillConfig) (pre : List (ℚ × ℚ)) (t b : ℚ),
      (update (runE (mkEngine cfg) pre).1 t b).2 ≠ [] →
      (runE (mkEngine cfg) pre).1.state ≠ EState.IDLE ∧
      b < cfg.onset_thresh ∧
      ∃ k, ∃ h : k < pre.length,
        (∀ x ∈ pre.drop k, x.2 < cfg.onset_thresh) ∧
        t - (pre.get ⟨k, h⟩).1 ≥ cfg.end_hysteresis_ms) ∧
    (∀ (e : DrillEngine) (t b : ℚ), e.cfg.onset_thresh ≤ b →
      (update e t b).2 = [] ∧ (update e t b).1.end_candidate_t = none) := by
  constructor
  · intro cfg pre t b hne
    obtain ⟨hinv, hcfgE⟩ := candInv_runE cfg pre
    have hcand := pipeline_cand (runE (mkEngine cfg) pre).1 t b
    have hcfg3 : (updState (updPeak (updCross (runE (mkEngine cfg) pre).1 t b) b) t b).cfg
        = cfg := by
      rw [updState_cfg, updPeak_cfg, updCross_cfg, hcfgE]
    unfold update updEnd at hne
    split_ifs at hne with h1 h2
    · rcases hec : (updState (updPeak (updCross (runE (mkEngine cfg) pre).1 t b) b) t
          b).end_candidate_t with _ | tc
      · rw [hec] at hne
        simp at hne
      · rw [hec] at hne
        dsimp only at hne
        split_ifs at hne with h3
        · refine ⟨?_, ?_, ?_⟩
          · intro hidle
            have hval := hinv.2 hidle
            have : some tc = none := hec.symm.trans (hcand.trans hval)
            exact Option.noConfusion this
          · rw [hcfg3] at h2
            exact h2
          · obtain ⟨k, hk, hget, hbelow⟩ := hinv.1 tc (hcand.symm.trans hec)
            refine ⟨k, hk, hbelow, ?_⟩
            rw [hget]
            rw [hcfg3] at h3
            exact h3
        · simp at hne
    · simp at hne
    · simp at hne
  · intro e t b hb
    have hne_idle : (updState (updPeak (updCross e t b) b) t b).state ≠ EState.IDLE := by
      intro hidle
      obtain ⟨-, hlt⟩ := pipeline_state_eq_idle e t b hidle
      exact absurd hb (not_le.mpr hlt)
    have h1 := (estate_ne_idle_iff _).mp hne_idle
    have hb3 : ¬(b < (updState (updPeak (updCross e t b) b) t b).cfg.onset_thresh) := by
      rw [updState_cfg, updPeak_cfg, updCross_cfg]
      exact not_lt.mpr hb
    unfold update updEnd
    rw [if_pos h1, if_neg hb3]
    exact ⟨rfl, rfl⟩

/-- The first five samples of `traceA`: the rep is live with an end
candidate armed at `t = 600`. -/
def preA : List (ℚ × ℚ) := [(0, 0), (10, 1/2), (100, 8/10), (150, 7/10), (600, 0)]

lemma runA5 : runE (mkEngine cfgD) preA = (eA5, []) := by
  simp only [runE, preA, stepA1, stepA2, stepA3, stepA4, stepA5,
    List.nil_append, List.append_nil]

/-- Witness for C6: the emitting sample of `traceA` satisfies the
hysteresis conditions, and a sample at or above the onset threshold
cancels the candidate. -/
theorem C6_end_hysteresis_witness :
    (update (runE (mkEngine cfgD) preA).1 850 0).2 ≠ [] ∧
    ((runE (mkEngine cfgD) preA).1.state ≠ EState.IDLE ∧
     (0 : ℚ) < cfgD.onset_thresh ∧
     ∃ k, ∃ h : k < preA.length, (∀ x ∈ preA.drop k, x.2 < cfgD.onset_thresh) ∧
       850 - (preA.get ⟨k, h⟩).1 ≥ cfgD.end_hysteresis_ms) ∧
    cfgD.onset_thresh ≤ 1/2 ∧
    (update (mkEngine cfgD) 0 (1/2)).2 = [] ∧
    (update (mkEngine cfgD) 0 (1/2)).1.end_candidate_t = none := by
  have hne : (update (runE (mkEngine cfgD) preA).1 850 0).2 ≠ [] := by
    rw [runA5]
    simp [stepA6]
  have hb : cfgD.onset_thresh ≤ (1 : ℚ)/2 := by norm_num [cfgD, ONSET_THRESH]
  exact ⟨hne, C6_end_hysteresis.1 cfgD preA 850 0 hne, hb,
    (C6_end_hysteresis.2 (mkEngine cfgD) 0 (1/2) hb).1,
    (C6_end_hysteresis.2 (mkEngine cfgD) 0 (1/2) hb).2⟩

lemma prefixRun_le_length (l : List Bool) : prefixRun l ≤ l.length := by
  induction l with
  | nil => exact le_refl 0
  | cons p r ih => cases p <;> simp [prefixRun] <;> omega

lemma maxRun_le_length (l : List Bool) : maxRun l ≤ l.length := by
  induction l with
  | nil => exact le_refl 0
  | cons p r ih =>
    simp only [maxRun]
    exact max_le (prefixRun_le_length _) (le_trans ih (by simp))

lemma prefixRun_append_false (l : List Bool) : prefixRun (l ++ [false]) = prefixRun l := by
  induction l with
  | nil => rfl
  | cons p r ih => cases p <;> simp [prefixRun, ih]

lemma prefixRun_append_true (l : List Bool) :
    prefixRun (l ++ [true]) =
      if prefixRun l = l.length then l.length + 1 else prefixRun l := by
  induction l with
  | nil => rfl
  | cons p r ih =>
    cases p
    · have h : ¬(0 = r.length + 1) := by omega
      simp [prefixRun, h]
    · simp only [List.cons_append, prefixRun, List.length_cons, List.append_eq]
      rw [ih]
      by_cases h : prefixRun r = r.length
      · rw [if_pos h, if_pos (by omega)]
      · rw [if_neg h, if_neg (by omega)]

lemma prefixRun_eq_length_iff (l : List Bool) :
    prefixRun l = l.length ↔ ∀ x ∈ l, x = true := by
  induction l with
  | nil => simp [prefixRun]
  | cons p r ih =>
    cases p
    · have h : ¬(0 = r.length + 1) := by omega
      simp [prefixRun, h]
    · simp [prefixRun, ih, Nat.succ_inj]

lemma suffixRun_concat (l : List Bool) (p : Bool) :
    suffixRun (l ++ [p]) = if p then suffixRun l + 1 else 0 := by
  unfold suffixRun
  rw [List.reverse_append]
  cases p <;> simp [prefixRun]

lemma suffixRun_cons_false (l : List Bool) : suffixRun (false :: l) = suffixRun l := by
  unfold suffixRun
  rw [List.reverse_cons, prefixRun_append_false]

lemma suffixRun_cons_true (l : List Bool) :
    suffixRun (true :: l) =
      if suffixRun l = l.length then l.length + 1 else suffixRun l := by
  unfold suffixRun
  rw [List.reverse_cons, prefixRun_append_true]
  simp [List.length_reverse]

lemma suffixRun_eq_length_iff (l : List Bool) :
    suffixRun l = l.length ↔ ∀ x ∈ l, x = true := by
  unfold suffixRun
  rw [← List.length_reverse l, prefixRun_eq_length_iff]
  constructor <;> intro h x hx
  · exact h x (List.mem_reverse.mpr hx)
  · exact h x (List.mem_reverse.mp hx)

lemma maxRun_concat_false (l : List Bool) : maxRun (l ++ [false]) = maxRun l := by
  induction l with
  | nil => rfl
  | cons q r ih =>
    cases q <;> simp [maxRun, prefixRun, prefixRun_append_false, List.append_eq, ih]

lemma maxRun_concat_true (l : List Bool) :
    maxRun (l ++ [true]) = max (maxRun l) (suffixRun l + 1) := by
  induction l with
  | nil => rfl
  | cons q r ih =>
    cases q
    · simp only [List.cons_append, maxRun, prefixRun, List.append_eq, ih, suffixRun_cons_false]
      omega
    · simp only [List.cons_append, maxRun, prefixRun, List.append_eq, ih,
        suffixRun_cons_true, prefixRun_append_true]
      by_cases h : prefixRun r = r.length
      · have hall := (prefixRun_eq_length_iff r).mp h
        have hs : suffixRun r = r.length := (suffixRun_eq_length_iff r).mpr hall
        have hm := maxRun_le_length r
        simp [h, hs]
        omega
      · have hs : suffixRun r ≠ r.length := fun hc =>
          h ((prefixRun_eq_length_iff r).mpr ((suffixRun_eq_length_iff r).mp hc))
        simp [h, hs]
        omega

lemma note_rep_goal (s : StreakTracker) (t : ℚ) (p : Bool) :
    (s.note_rep t p).goal = s.goal := by
  simp only [StreakTracker.note_rep]
  split_ifs <;> rfl

lemma note_rep_reps (s : StreakTracker) (t : ℚ) (p : Bool) :
    (s.note_rep t p).reps = s.reps + 1 := by
  simp only [StreakTracker.note_rep]
  split_ifs <;> rfl

lemma note_rep_true (s : StreakTracker) (t : ℚ) :
    (s.note_rep t true).streak = s.streak + 1 ∧
    (s.note_rep t true).best = max s.best (s.streak + 1) := by
  simp only [StreakTracker.note_rep, reduceIte]
  split_ifs <;> simp_all

lemma note_rep_false (s : StreakTracker) (t : ℚ) :
    (s.note_rep t false).streak = 0 ∧ (s.note_rep t false).best = s.best := by
  simp only [StreakTracker.note_rep, reduceIte]
  split_ifs <;> simp_all

lemma runTracker_concat (s : StreakTracker) (l : List (ℚ × Bool)) (t : ℚ) (p : Bool) :
    runTracker s (l ++ [(t, p)]) = (runTracker s l).note_rep t p := by
  induction l generalizing s with
  | nil => rfl
  | cons x rest ih =>
    obtain ⟨t', p'⟩ := x
    simp [runTracker, ih]

/-- Running the tracker from a fresh state: total reps, best streak and
current streak are the length, the maximum pass-run and the trailing
pass-run of the pass/fail word. -/
lemma runTracker_fresh (g : ℤ) (l : List (ℚ × Bool)) :
    (runTracker (mkTracker g) l).goal = g ∧
    (runTracker (mkTracker g) l).reps = l.length ∧
    (runTracker (mkTracker g) l).best = (maxRun (l.map Prod.snd) : ℤ) ∧
    (runTracker (mkTracker g) l).streak = (suffixRun (l.map Prod.snd) : ℤ) := by
  induction l using List.reverseRecOn with
  | nil => exact ⟨rfl, rfl, rfl, rfl⟩
  | append_singleton rest x ih =>
    obtain ⟨t, p⟩ := x
    obtain ⟨ihg, ihr, ihb, ihs⟩ := ih
    rw [runTracker_concat]
    refine ⟨by rw [note_rep_goal, ihg], by rw [note_rep_reps, ihr]; simp, ?_, ?_⟩
    · cases p
      · rw [(note_rep_false _ t).2, ihb]
        simp [maxRun_concat_false]
      · rw [(note_rep_true _ t).2, ihb, ihs]
        simp only [List.map_append, List.map_cons, List.map_nil, maxRun_concat_true]
        push_cast
        rfl
    · cases p
      · rw [(note_rep_false _ t).1]
        simp [suffixRun_concat]
      · rw [(note_rep_true _ t).1, ihs]
        simp only [List.map_append, List.map_cons, List.map_nil, suffixRun_concat]
        push_cast
        simp

/-- C8: each `note_rep` increments `reps`; a pass increments the streak and
folds it into `best`, a fail zeroes the streak and leaves `best`; `best`
never decreases; from a fresh tracker, after any pass/fail sequence `best`
equals the maximum run of consecutive passes, the streak is the trailing
pass run, and `complete()` holds iff the current streak reaches the goal. -/
theorem C8_streak_tracker :
    (∀ (s : StreakTracker) (t : ℚ) (p : Bool),
      (s.note_rep t p).reps = s.reps + 1 ∧
      (p = true → (s.note_rep t p).streak = s.streak + 1 ∧
        (s.note_rep t p).best = max s.best (s.streak + 1)) ∧
      (p = false → (s.note_rep t p).streak = 0 ∧ (s.note_rep t p).best = s.best) ∧
      s.best ≤ (s.note_rep t p).best) ∧
    (∀ (g : ℤ) (l : List (ℚ × Bool)),
      (runTracker (mkTracker g) l).reps = l.length ∧
      (runTracker (mkTracker g) l).best = (maxRun (l.map Prod.snd) : ℤ) ∧
      (runTracker (mkTracker g) l).streak = (suffixRun (l.map Prod.snd) : ℤ) ∧
      ((runTracker (mkTracker g) l).complete = true ↔
        (runTracker (mkTracker g) l).streak ≥ g)) := by
  constructor
  · intro s t p
    refine ⟨note_rep_reps s t p, ?_, ?_, ?_⟩
    · rintro rfl
      exact note_rep_true s t
    · rintro rfl
      exact note_rep_false s t
    · cases p
      · rw [(note_rep_false s t).2]
      · rw [(note_rep_true s t).2]
        exact le_max_left _ _
  · intro g l
    obtain ⟨hg, hr, hb, hs⟩ := runTracker_fresh g l
    refine ⟨hr, hb, hs, ?_⟩
    rw [StreakTracker.complete, hg]
    exact decide_eq_true_iff

/-- Witness for C8: a pass, a pass and a fail from a fresh tracker with
goal 2. -/
theorem C8_streak_tracker_witness :
    ((mkTracker 2).note_rep 0 true).streak = (mkTracker 2).streak + 1 ∧
    ((mkTracker 2).note_rep 0 false).streak = 0 ∧
    (runTracker (mkTracker 2) [(0, true), (1, true), (2, false)]).best = (2 : ℤ) ∧
    ((runTracker (mkTracker 2) [(0, true), (1, true), (2, false)]).complete = true ↔
      (runTracker (mkTracker 2) [(0, true), (1, true), (2, false)]).streak ≥ 2) :=
  ⟨((C8_streak_tracker.1 (mkTracker 2) 0 true).2.1 rfl).1,
   ((C8_streak_tracker.1 (mkTracker 2) 0 false).2.2.1 rfl).1,
   by rw [(C8_streak_tracker.2 2 [(0, true), (1, true), (2, false)]).2.1]; rfl,
   (C8_streak_tracker.2 2 [(0, true), (1, true), (2, false)]).2.2.2⟩

end BrakeTrainer
